import Mathlib

/-!
Verification of the polymarket-trading-bot core against its specification.

The development shallowly embeds the arithmetic and state-transition cores of
the repository's TypeScript sources:

* `BitcoinOracle.calculateProbabilities` and the median aggregation of
  `BitcoinOracle.fetchPrices` (oracle);
* `OrderBookTracker.updateOrderBook` / `checkLiquidity` (order book);
* `RateLimiter.executeWithRetry` (retry wrapper);
* `PnLTracker.recordTrade` / `getStats` and the bot's `recordTradeClose`
  (P&L ledger and OCO close);
* the enhanced `AutoTradingBot.checkTradeOpportunity` gate chain and
  `executeTrade` order arithmetic (opportunity detection and execution).

JavaScript numbers are modelled as rationals (`ℚ`), timestamps as integers
(`ℤ`, milliseconds), and the remote-call thunk of the retry wrapper as a pure
function from the attempt index to an `Except` result.  Log strings emitted by
the code (the `warnings` arrays and logger calls) are elided: they carry no
data consumed by any other part of the program.
-/

namespace PolyBot

/-! ## Oracle: `BitcoinOracle.calculateProbabilities` -/

/-- Result triple of `BitcoinOracle.calculateProbabilities`. -/
structure ProbResult where
  probUp : ℚ
  probDown : ℚ
  confidence : ℚ
  deriving DecidableEq

/-- Shallow embedding of `BitcoinOracle.calculateProbabilities`.
`historyLength` is `this.priceHistory.length` and `activeSources` is
`this.activeSources.size` at the time of the call; `momentum` and
`volatility` are the two numeric arguments. -/
def calculateProbabilities (historyLength activeSources : ℕ)
    (momentum volatility : ℚ) : ProbResult :=
  let momentumFactor : ℚ := (momentum + 1) / 2
  let volatilityFactor : ℚ := max 0 (1 - volatility / 10)
  let probUp0 : ℚ := 1/2 + (momentumFactor - 1/2) * volatilityFactor
  let probUp1 : ℚ := if 8/10 < probUp0 then 8/10 + (probUp0 - 8/10) * (1/2) else probUp0
  let probUp2 : ℚ := if probUp1 < 2/10 then 2/10 - (2/10 - probUp1) * (1/2) else probUp1
  let probUp : ℚ := max (1/20) (min (19/20) probUp2)
  let probDown : ℚ := 1 - probUp
  let dataConfidence : ℚ := min ((historyLength : ℚ) / 60) 1
  let sourceConfidence : ℚ := min ((activeSources : ℚ) / 2) 1
  let volatilityConfidence : ℚ := max (3/10) (1 - volatility / 20)
  { probUp := probUp
    probDown := probDown
    confidence := dataConfidence * sourceConfidence * volatilityConfidence }

/-- The `probUp` field of `BitcoinOracle.getDefaultData`, returned by
`getOracleData` when the history buffer has fewer than two points. -/
def defaultProbUp : ℚ := 1/2

/-- The `probDown` field of `BitcoinOracle.getDefaultData`. -/
def defaultProbDown : ℚ := 1/2

/-! ## Oracle: median aggregation in `BitcoinOracle.fetchPrices` -/

/-- The ascending sort `prices.map(p => p.price).sort((a, b) => a - b)`
performed by `fetchPrices`. -/
def sortPrices (prices : List ℚ) : List ℚ :=
  prices.insertionSort (· ≤ ·)

/-- The aggregate price computed by `fetchPrices`:
`sortedPrices[Math.floor(sortedPrices.length / 2)]`.  The `0` default of
`getD` is never used by the caller, which guards `prices.length === 0`. -/
def aggregatePrice (prices : List ℚ) : ℚ :=
  (sortPrices prices).getD (prices.length / 2) 0

/-- Modelled from the spec's words, for comparison with `aggregatePrice`:
the statistical median of a list — the middle element of the ascending sort
for an odd count, the mean of the two middle elements for an even count. -/
def medianSpec (prices : List ℚ) : ℚ :=
  let s := sortPrices prices
  let n := prices.length
  if n % 2 = 1 then s.getD (n / 2) 0
  else (s.getD (n / 2 - 1) 0 + s.getD (n / 2) 0) / 2

theorem sortPrices_perm (l : List ℚ) : List.Perm (sortPrices l) l :=
  List.perm_insertionSort _ l

theorem sortPrices_sorted (l : List ℚ) : (sortPrices l).Sorted (· ≤ ·) :=
  List.sorted_insertionSort _ l

theorem sortPrices_length (l : List ℚ) : (sortPrices l).length = l.length :=
  (sortPrices_perm l).length_eq

/-- In a sorted list, the element at index `i` dominates at least `i + 1`
elements of the list. -/
theorem countP_le_index_of_sorted :
    ∀ (s : List ℚ), s.Sorted (· ≤ ·) → ∀ (i : ℕ) (h : i < s.length),
      i + 1 ≤ s.countP (fun a => decide (a ≤ s[i])) := by
  intro s
  induction s with
  | nil => intro _ i h; exact absurd h (Nat.not_lt_zero i)
  | cons x xs ih =>
    intro hs i h
    rcases List.sorted_cons.mp hs with ⟨hx, hxs⟩
    cases i with
    | zero =>
      simp only [List.getElem_cons_zero, List.countP_cons]
      simp
    | succ j =>
      have hj : j < xs.length := Nat.lt_of_succ_lt_succ h
      have hxm : x ≤ xs[j] := hx _ (List.getElem_mem hj)
      have hcnt : (x :: xs).countP (fun a => decide (a ≤ xs[j]))
          = xs.countP (fun a => decide (a ≤ xs[j])) + 1 := by
        simp [List.countP_cons, hxm]
      have ihj := ih hxs j hj
      simp only [List.getElem_cons_succ]
      omega

/-- In a sorted list, the element at index `i` is dominated by at least
`length - i` elements of the list. -/
theorem countP_ge_index_of_sorted :
    ∀ (s : List ℚ), s.Sorted (· ≤ ·) → ∀ (i : ℕ) (h : i < s.length),
      s.length - i ≤ s.countP (fun a => decide (s[i] ≤ a)) := by
  intro s
  induction s with
  | nil => intro _ i h; exact absurd h (Nat.not_lt_zero i)
  | cons x xs ih =>
    intro hs i h
    rcases List.sorted_cons.mp hs with ⟨hx, hxs⟩
    cases i with
    | zero =>
      have hall : xs.countP (fun a => decide (x ≤ a)) = xs.length :=
        List.countP_eq_length.mpr (fun a ha => decide_eq_true (hx a ha))
      have hcnt : (x :: xs).countP (fun a => decide (x ≤ a))
          = xs.countP (fun a => decide (x ≤ a)) + 1 := by
        simp [List.countP_cons]
      simp only [List.getElem_cons_zero, List.length_cons]
      omega
    | succ j =>
      have hj : j < xs.length := Nat.lt_of_succ_lt_succ h
      have ihj := ih hxs j hj
      have hmono : xs.countP (fun a => decide (xs[j] ≤ a))
          ≤ (x :: xs).countP (fun a => decide (xs[j] ≤ a)) := by
        simp only [List.countP_cons]
        omega
      simp only [List.getElem_cons_succ, List.length_cons]
      omega

/-- C1: for every oracle snapshot — whether the default snapshot returned for
a short history buffer or one computed by `calculateProbabilities` from any
history length, source count and finite momentum/volatility input — the
returned `probUp` lies in `[0.05, 0.95]` and `probUp + probDown = 1`
exactly. -/
theorem calculateProbabilities_probUp_bounds
    (historyLength activeSources : ℕ) (momentum volatility : ℚ) :
    (1/20 ≤ (calculateProbabilities historyLength activeSources momentum volatility).probUp ∧
      (calculateProbabilities historyLength activeSources momentum volatility).probUp ≤ 19/20 ∧
      (calculateProbabilities historyLength activeSources momentum volatility).probUp
        + (calculateProbabilities historyLength activeSources momentum volatility).probDown
        = 1) ∧
    (1/20 ≤ defaultProbUp ∧ defaultProbUp ≤ 19/20 ∧
      defaultProbUp + defaultProbDown = 1) := by
  refine ⟨⟨?_, ?_, ?_⟩, by norm_num [defaultProbUp, defaultProbDown]⟩ <;>
    simp only [calculateProbabilities]
  · exact le_max_left _ _
  · exact max_le (by norm_num) (min_le_left _ _)
  · ring

/-- C2 (amended): for an odd number of successful sources the aggregate price
of `fetchPrices` is a genuine median of the per-source prices: it is one of
the prices, at least half of them (rounded up) are at most the aggregate, at
least half are at least the aggregate, and it coincides with the statistical
median. -/
theorem aggregatePrice_median_of_odd (l : List ℚ) (hodd : l.length % 2 = 1) :
    aggregatePrice l ∈ l ∧
    (l.length + 1) / 2 ≤ l.countP (fun a => decide (a ≤ aggregatePrice l)) ∧
    (l.length + 1) / 2 ≤ l.countP (fun a => decide (aggregatePrice l ≤ a)) ∧
    aggregatePrice l = medianSpec l := by
  have hlen : (sortPrices l).length = l.length := sortPrices_length l
  have hidx : l.length / 2 < (sortPrices l).length := by omega
  have hagg : aggregatePrice l = (sortPrices l)[l.length / 2] := by
    unfold aggregatePrice
    exact List.getD_eq_getElem _ _ hidx
  refine ⟨?_, ?_, ?_, ?_⟩
  · rw [hagg]
    exact (sortPrices_perm l).subset (List.getElem_mem hidx)
  · rw [hagg]
    have hcnt := countP_le_index_of_sorted (sortPrices l) (sortPrices_sorted l)
      (l.length / 2) hidx
    rw [(sortPrices_perm l).countP_eq] at hcnt
    omega
  · rw [hagg]
    have hcnt := countP_ge_index_of_sorted (sortPrices l) (sortPrices_sorted l)
      (l.length / 2) hidx
    rw [(sortPrices_perm l).countP_eq] at hcnt
    omega
  · simp [aggregatePrice, medianSpec, hodd]

/-- C2 (counterexample): with the two successful source prices {100, 200} the
code's aggregate is the upper-middle element 200 of the sorted list, while
the median of {100, 200} is 150; the claim as stated fails for even source
counts. -/
theorem aggregatePrice_two_sources_ne_median :
    aggregatePrice [100, 200] = 200 ∧ medianSpec [100, 200] = 150 ∧
    aggregatePrice [100, 200] ≠ medianSpec [100, 200] := by
  have hsort : sortPrices [100, 200] = ([100, 200] : List ℚ) := by
    norm_num [sortPrices, List.insertionSort, List.orderedInsert]
  have h1 : aggregatePrice [100, 200] = 200 := by
    simp [aggregatePrice, hsort]
  have h2 : medianSpec [100, 200] = 150 := by
    simp [medianSpec, hsort]
    norm_num
  exact ⟨h1, h2, by rw [h1, h2]; norm_num⟩

/-- C2 witness: the amended theorem applied at the spec's concrete scenario
{100, 101, 1000000}, whose aggregate price is 101. -/
theorem aggregatePrice_median_of_odd_witness :
    ([100, 101, 1000000] : List ℚ).length % 2 = 1 ∧
    aggregatePrice [100, 101, 1000000] = 101 ∧
    (aggregatePrice [100, 101, 1000000] ∈ ([100, 101, 1000000] : List ℚ) ∧
      (([100, 101, 1000000] : List ℚ).length + 1) / 2
        ≤ ([100, 101, 1000000] : List ℚ).countP
            (fun a => decide (a ≤ aggregatePrice [100, 101, 1000000])) ∧
      (([100, 101, 1000000] : List ℚ).length + 1) / 2
        ≤ ([100, 101, 1000000] : List ℚ).countP
            (fun a => decide (aggregatePrice [100, 101, 1000000] ≤ a)) ∧
      aggregatePrice [100, 101, 1000000] = medianSpec [100, 101, 1000000]) := by
  have hsort : sortPrices [100, 101, 1000000] = ([100, 101, 1000000] : List ℚ) := by
    norm_num [sortPrices, List.insertionSort, List.orderedInsert]
  exact ⟨by decide, by simp [aggregatePrice, hsort],
    aggregatePrice_median_of_odd _ (by decide)⟩

/-! ## Order book: `OrderBookTracker` -/

/-- One price level of one side of the book (`OrderLevel`). -/
structure OrderLevel where
  price : ℚ
  size : ℚ
  deriving DecidableEq

/-- Stored order book snapshot (`OrderBookData`). -/
structure OrderBookData where
  tokenId : String
  bids : List OrderLevel
  asks : List OrderLevel
  lastUpdate : ℤ
  midPrice : ℚ
  spread : ℚ
  spreadPercent : ℚ
  deriving DecidableEq

/-- Shallow embedding of `OrderBookTracker.updateOrderBook`: derives mid
price, spread and spread percentage from the best levels and stamps the
snapshot with the current time. -/
def updateOrderBook (tokenId : String) (bids asks : List OrderLevel)
    (now : ℤ) : OrderBookData :=
  let bestBid : ℚ := match bids with | [] => 0 | b :: _ => b.price
  let bestAsk : ℚ := match asks with | [] => 0 | a :: _ => a.price
  let midPrice : ℚ := if 0 < bestBid ∧ 0 < bestAsk then (bestBid + bestAsk) / 2 else 0
  let spread : ℚ := bestAsk - bestBid
  let spreadPercent : ℚ := if 0 < midPrice then spread / midPrice * 100 else 0
  { tokenId := tokenId, bids := bids, asks := asks, lastUpdate := now,
    midPrice := midPrice, spread := spread, spreadPercent := spreadPercent }

/-- Order side, matching the `'BUY' | 'SELL'` union type. -/
inductive Side where
  | BUY
  | SELL
  deriving DecidableEq

/-- Accumulators of `checkLiquidity`'s walk over the levels: total walkable
liquidity, size-weighted price sum, and the unfilled remainder. -/
structure WalkResult where
  totalLiquidity : ℚ
  weightedPriceSum : ℚ
  remainingAmount : ℚ
  deriving DecidableEq

/-- The `for (const level of levels)` loop of `checkLiquidity`, threading the
three accumulators through the levels in book order. -/
def walkLevels : List OrderLevel → ℚ → WalkResult
  | [], remaining =>
    { totalLiquidity := 0, weightedPriceSum := 0, remainingAmount := remaining }
  | level :: rest, remaining =>
    let levelValue := level.price * level.size
    let fillAmount := if 0 < remaining then min remaining levelValue else 0
    let r := walkLevels rest (remaining - fillAmount)
    { totalLiquidity := levelValue + r.totalLiquidity,
      weightedPriceSum := level.price * fillAmount + r.weightedPriceSum,
      remainingAmount := r.remainingAmount }

/-- Result record of `checkLiquidity` (`LiquidityCheck`); the human-readable
`warnings` array is elided, being log-only output. -/
structure LiquidityCheck where
  sufficient : Bool
  availableLiquidity : ℚ
  requiredLiquidity : ℚ
  estimatedSlippage : ℚ
  effectivePrice : ℚ
  deriving DecidableEq

/-- Shallow embedding of `OrderBookTracker.checkLiquidity`.  `books` is the
tracker's `orderBooks` map; `minLiquidityMultiplier` is the tracker
configuration field of the same name.  The staleness and spread warnings do
not influence any returned field and are elided with the `warnings` array. -/
def checkLiquidity (minLiquidityMultiplier : ℚ)
    (books : String → Option OrderBookData) (tokenId : String)
    (side : Side) (amount : ℚ) : LiquidityCheck :=
  match books tokenId with
  | none =>
    { sufficient := false, availableLiquidity := 0, requiredLiquidity := amount,
      estimatedSlippage := 1, effectivePrice := 0 }
  | some book =>
    let levels := match side with | Side.BUY => book.asks | Side.SELL => book.bids
    match levels with
    | [] =>
      { sufficient := false, availableLiquidity := 0, requiredLiquidity := amount,
        estimatedSlippage := 1, effectivePrice := 0 }
    | best :: restLevels =>
      let w := walkLevels (best :: restLevels) amount
      let effectivePrice :=
        if 0 < amount then w.weightedPriceSum / (amount - max 0 w.remainingAmount)
        else best.price
      let bestPrice := best.price
      let estimatedSlippage :=
        if 0 < bestPrice then |effectivePrice - bestPrice| / bestPrice else 0
      let requiredLiquidity := amount * minLiquidityMultiplier
      let sufficient :=
        decide (requiredLiquidity ≤ w.totalLiquidity) && decide (w.remainingAmount ≤ 0)
      { sufficient := sufficient, availableLiquidity := w.totalLiquidity,
        requiredLiquidity := requiredLiquidity,
        estimatedSlippage := estimatedSlippage, effectivePrice := effectivePrice }

/-- Total walkable liquidity of one side: the notional value summed over all
its levels (the spec's "total walkable liquidity"). -/
def totalSideLiquidity (levels : List OrderLevel) : ℚ :=
  (levels.map (fun lv => lv.price * lv.size)).sum

/-- Modelled from the spec's words: the full requested notional is fillable
across the available levels exactly when it does not exceed the total
walkable liquidity. -/
def Fillable (amount : ℚ) (levels : List OrderLevel) : Prop :=
  amount ≤ totalSideLiquidity levels

theorem walkLevels_totalLiquidity (levels : List OrderLevel) (r : ℚ) :
    (walkLevels levels r).totalLiquidity = totalSideLiquidity levels := by
  induction levels generalizing r with
  | nil => simp [walkLevels, totalSideLiquidity]
  | cons lv rest ih => simp [walkLevels, totalSideLiquidity, ih]

theorem totalSideLiquidity_nonneg (levels : List OrderLevel)
    (hlv : ∀ lv ∈ levels, 0 ≤ lv.price * lv.size) :
    0 ≤ totalSideLiquidity levels := by
  induction levels with
  | nil => simp [totalSideLiquidity]
  | cons lv rest ih =>
    have h0 := hlv lv (List.mem_cons_self lv rest)
    have h1 : 0 ≤ totalSideLiquidity rest :=
      ih (fun x hx => hlv x (List.mem_cons_of_mem _ hx))
    simp only [totalSideLiquidity, List.map_cons, List.sum_cons]
    positivity

/-- Clamping at zero commutes with subtracting a non-negative quantity. -/
theorem max_zero_sub_right (x y : ℚ) (hy : 0 ≤ y) :
    max 0 (max 0 x - y) = max 0 (x - y) := by
  rcases le_or_lt x 0 with hx | hx
  · rw [max_eq_left hx, zero_sub, max_eq_left (by linarith : -y ≤ (0:ℚ)),
      max_eq_left (by linarith : x - y ≤ (0:ℚ))]
  · rw [max_eq_right (le_of_lt hx)]

/-- The unfilled remainder left by the walk is the part of the requested
amount exceeding the total walkable liquidity, floored at zero. -/
theorem walkLevels_remaining (levels : List OrderLevel) (r : ℚ)
    (hr : 0 ≤ r) (hlv : ∀ lv ∈ levels, 0 ≤ lv.price * lv.size) :
    (walkLevels levels r).remainingAmount = max 0 (r - totalSideLiquidity levels) := by
  induction levels generalizing r with
  | nil =>
    simp only [walkLevels, totalSideLiquidity, List.map_nil, List.sum_nil, sub_zero]
    exact (max_eq_right hr).symm
  | cons lv rest ih =>
    have hv : 0 ≤ lv.price * lv.size := hlv lv (List.mem_cons_self lv rest)
    have hrest : ∀ x ∈ rest, 0 ≤ x.price * x.size :=
      fun x hx => hlv x (List.mem_cons_of_mem _ hx)
    have hrestsum : 0 ≤ totalSideLiquidity rest := totalSideLiquidity_nonneg rest hrest
    simp only [walkLevels]
    set v := lv.price * lv.size with hvdef
    set fill := if 0 < r then min r v else 0 with hfill
    have hr2 : r - fill = max 0 (r - v) := by
      rw [hfill]
      rcases lt_or_le 0 r with hpos | hnonpos
      · rw [if_pos hpos]
        rcases le_total v r with hvr | hrv
        · rw [min_eq_right hvr, max_eq_right (by linarith : (0:ℚ) ≤ r - v)]
        · rw [min_eq_left hrv, max_eq_left (by linarith : r - v ≤ (0:ℚ))]
          ring
      · have hz : r = 0 := le_antisymm hnonpos hr
        rw [hz, if_neg (lt_irrefl 0), sub_zero,
          max_eq_left (by linarith : (0:ℚ) - v ≤ 0)]
    have hr3 : 0 ≤ r - fill := by rw [hr2]; exact le_max_left _ _
    rw [ih (r - fill) hr3 hrest, hr2]
    have hts : totalSideLiquidity (lv :: rest) = v + totalSideLiquidity rest := by
      simp [totalSideLiquidity, hvdef]
    have harg : r - (v + totalSideLiquidity rest) = (r - v) - totalSideLiquidity rest := by
      ring
    rw [hts, harg]
    exact max_zero_sub_right (r - v) (totalSideLiquidity rest) hrestsum

/-- The book of the spec's liquidity example: asks [(1.00, 10), (1.02, 10)]. -/
def exampleBook : OrderBookData :=
  updateOrderBook "TOK" [] [⟨1, 10⟩, ⟨102/100, 10⟩] 0

/-- A tracker `orderBooks` map holding only `exampleBook`. -/
def exampleAskBooks : String → Option OrderBookData :=
  fun t => if t = "TOK" then some exampleBook else none

theorem checkLiquidity_sufficient_core (minMult : ℚ)
    (books : String → Option OrderBookData) (tokenId : String) (side : Side)
    (amount : ℚ) (book : OrderBookData)
    (hbook : books tokenId = some book)
    (levels : List OrderLevel)
    (hlevels : levels = (match side with | Side.BUY => book.asks | Side.SELL => book.bids))
    (hne : levels ≠ [])
    (hnn : ∀ lv ∈ levels, 0 ≤ lv.price * lv.size)
    (hamount : 0 ≤ amount) :
    ((checkLiquidity minMult books tokenId side amount).sufficient = true ↔
      (amount * minMult ≤ totalSideLiquidity levels ∧ Fillable amount levels)) := by
  obtain ⟨best, rest, hbr⟩ : ∃ b r, levels = b :: r := by
    cases levels with
    | nil => exact absurd rfl hne
    | cons b r => exact ⟨b, r, rfl⟩
  have hwt := walkLevels_totalLiquidity levels amount
  have hwr := walkLevels_remaining levels amount hamount hnn
  have hmax : max 0 (amount - totalSideLiquidity levels) ≤ 0 ↔
      amount ≤ totalSideLiquidity levels := by
    rw [max_le_iff]
    constructor
    · rintro ⟨-, h⟩; linarith
    · intro h; exact ⟨le_refl 0, by linarith⟩
  cases side with
  | BUY =>
    have ha : levels = book.asks := hlevels
    subst hbr
    simp only [checkLiquidity, hbook, ← ha, Bool.and_eq_true, decide_eq_true_iff]
    rw [hwt, hwr, hmax]
    simp only [Fillable]
  | SELL =>
    have ha : levels = book.bids := hlevels
    subst hbr
    simp only [checkLiquidity, hbook, ← ha, Bool.and_eq_true, decide_eq_true_iff]
    rw [hwt, hwr, hmax]
    simp only [Fillable]

/-- C4: with a non-empty relevant side of positive prices and non-negative
sizes, `checkLiquidity` reports `sufficient = true` exactly when the total
walkable liquidity covers `amount * minLiquidityMultiplier` and the full
requested amount is fillable; and for asks [(1.00, 10), (1.02, 10)] with a
requested notional of 15 the effective price lies strictly between 1.00 and
1.02. -/
theorem checkLiquidity_sufficient_iff (minMult : ℚ)
    (books : String → Option OrderBookData) (tokenId : String) (side : Side)
    (amount : ℚ) (book : OrderBookData)
    (hbook : books tokenId = some book)
    (levels : List OrderLevel)
    (hlevels : levels = (match side with | Side.BUY => book.asks | Side.SELL => book.bids))
    (hne : levels ≠ [])
    (hlv : ∀ lv ∈ levels, 0 < lv.price ∧ 0 ≤ lv.size)
    (hamount : 0 ≤ amount) :
    ((checkLiquidity minMult books tokenId side amount).sufficient = true ↔
      (amount * minMult ≤ totalSideLiquidity levels ∧ Fillable amount levels)) ∧
    (1 < (checkLiquidity 2 exampleAskBooks "TOK" Side.BUY 15).effectivePrice ∧
      (checkLiquidity 2 exampleAskBooks "TOK" Side.BUY 15).effectivePrice < 102/100) := by
  constructor
  · exact checkLiquidity_sufficient_core minMult books tokenId side amount book hbook
      levels hlevels hne
      (fun lv h => mul_nonneg (le_of_lt (hlv lv h).1) (hlv lv h).2) hamount
  · have hbooks : exampleAskBooks "TOK" = some exampleBook := by
      simp [exampleAskBooks]
    have hasks : exampleBook.asks = [⟨1, 10⟩, ⟨102/100, 10⟩] := by
      simp [exampleBook, updateOrderBook]
    have hw : walkLevels [⟨1, 10⟩, ⟨102/100, 10⟩] 15 =
        { totalLiquidity := 101/5, weightedPriceSum := 151/10, remainingAmount := 0 } := by
      norm_num [walkLevels, min_def]
    simp only [checkLiquidity, hbooks, hasks, hw]
    norm_num [max_def]

/-- C4 witness: the sufficiency characterisation applied at the spec's
example — asks [(1.00, 10), (1.02, 10)], requested notional 15, multiplier
2 — where the walkable liquidity of 20.2 falls short of the required 30, so
the check reports insufficient. -/
theorem checkLiquidity_sufficient_iff_witness :
    exampleAskBooks "TOK" = some exampleBook ∧
    ((checkLiquidity 2 exampleAskBooks "TOK" Side.BUY 15).sufficient = true ↔
      (15 * 2 ≤ totalSideLiquidity exampleBook.asks ∧ Fillable 15 exampleBook.asks)) ∧
    (checkLiquidity 2 exampleAskBooks "TOK" Side.BUY 15).sufficient = false := by
  refine ⟨by simp [exampleAskBooks], ?_, ?_⟩
  · exact (checkLiquidity_sufficient_iff 2 exampleAskBooks "TOK" Side.BUY 15
      exampleBook (by simp [exampleAskBooks]) exampleBook.asks rfl
      (by simp [exampleBook, updateOrderBook])
      (by norm_num [exampleBook, updateOrderBook]) (by norm_num)).1
  · have hbooks : exampleAskBooks "TOK" = some exampleBook := by
      simp [exampleAskBooks]
    have hasks : exampleBook.asks = [⟨1, 10⟩, ⟨102/100, 10⟩] := by
      simp [exampleBook, updateOrderBook]
    have hw : walkLevels [⟨1, 10⟩, ⟨102/100, 10⟩] 15 =
        { totalLiquidity := 101/5, weightedPriceSum := 151/10, remainingAmount := 0 } := by
      norm_num [walkLevels, min_def]
    have hreq : ¬ ((15:ℚ) * 2 ≤ 101/5) := by norm_num
    simp [checkLiquidity, hbooks, hasks, hw, hreq]

/-! ## Rate limiter: `RateLimiter.executeWithRetry` -/

/-- Retry configuration of the rate limiter (`RateLimiterConfig`). -/
structure RateLimiterConfig where
  maxRetries : ℕ
  baseDelayMs : ℕ
  maxDelayMs : ℕ
  deriving DecidableEq

/-- The backoff delay slept after a failed attempt:
`Math.min(baseDelayMs * Math.pow(2, attempt), maxDelayMs)`. -/
def retryDelay (cfg : RateLimiterConfig) (attempt : ℕ) : ℕ :=
  min (cfg.baseDelayMs * 2 ^ attempt) cfg.maxDelayMs

/-- The retry loop of `executeWithRetry`.  The remote thunk is modelled as a
pure function from the attempt index to an `Except` result; `remaining`
counts the retries still allowed (initially `maxRetries`).  The second
component of the result is the sequence of backoff delays slept, in order.
The pattern match for rate-limit wording in the error message only selects a
log line and is elided together with the logging. -/
def retryLoop {ε α : Type} (cfg : RateLimiterConfig) (thunk : ℕ → Except ε α) :
    ℕ → ℕ → Except ε α × List ℕ
  | attempt, 0 =>
    match thunk attempt with
    | Except.ok v => (Except.ok v, [])
    | Except.error e => (Except.error e, [])
  | attempt, m + 1 =>
    match thunk attempt with
    | Except.ok v => (Except.ok v, [])
    | Except.error _ =>
      let rest := retryLoop cfg thunk (attempt + 1) m
      (rest.1, retryDelay cfg attempt :: rest.2)

/-- Shallow embedding of `RateLimiter.executeWithRetry`: up to
`maxRetries + 1` attempts starting from attempt 0. -/
def executeWithRetry {ε α : Type} (cfg : RateLimiterConfig)
    (thunk : ℕ → Except ε α) : Except ε α × List ℕ :=
  retryLoop cfg thunk 0 cfg.maxRetries

theorem delays_shift (cfg : RateLimiterConfig) (a k : ℕ) :
    (List.range (k + 1)).map (fun i => retryDelay cfg (a + i))
      = retryDelay cfg a :: (List.range k).map (fun i => retryDelay cfg (a + 1 + i)) := by
  rw [List.range_succ_eq_map]
  simp only [List.map_cons, List.map_map, Nat.add_zero]
  have hfun : ((fun i => retryDelay cfg (a + i)) ∘ Nat.succ)
      = (fun i => retryDelay cfg (a + 1 + i)) := by
    funext i
    simp only [Function.comp_apply]
    congr 1
    omega
  rw [hfun]

theorem retryLoop_ok {ε α : Type} (cfg : RateLimiterConfig)
    (thunk : ℕ → Except ε α) (a m k : ℕ) (v : α) (hk : k ≤ m)
    (hfail : ∀ i, i < k → ∀ w : α, thunk (a + i) ≠ Except.ok w)
    (hok : thunk (a + k) = Except.ok v) :
    retryLoop cfg thunk a m =
      (Except.ok v, (List.range k).map (fun i => retryDelay cfg (a + i))) := by
  induction k generalizing a m with
  | zero =>
    rw [Nat.add_zero] at hok
    cases m <;> simp [retryLoop, hok]
  | succ k ih =>
    obtain ⟨e, he⟩ : ∃ e, thunk a = Except.error e := by
      cases hthunk : thunk a with
      | ok w =>
        have := hfail 0 (Nat.succ_pos k) w
        rw [Nat.add_zero] at this
        exact absurd hthunk this
      | error e => exact ⟨e, rfl⟩
    cases m with
    | zero => omega
    | succ m2 =>
      have hk2 : k ≤ m2 := Nat.succ_le_succ_iff.mp hk
      have hfail2 : ∀ i, i < k → ∀ w : α, thunk (a + 1 + i) ≠ Except.ok w := by
        intro i hi w
        have heq : a + 1 + i = a + (i + 1) := by omega
        rw [heq]
        exact hfail (i + 1) (Nat.succ_lt_succ hi) w
      have hok2 : thunk (a + 1 + k) = Except.ok v := by
        have heq : a + 1 + k = a + (k + 1) := by omega
        rw [heq]
        exact hok
      rw [delays_shift]
      simp only [retryLoop, he]
      rw [ih (a + 1) m2 hk2 hfail2 hok2]

theorem retryLoop_allFail {ε α : Type} (cfg : RateLimiterConfig)
    (thunk : ℕ → Except ε α) (errs : ℕ → ε) (a m : ℕ)
    (hfail : ∀ i, i ≤ m → thunk (a + i) = Except.error (errs (a + i))) :
    retryLoop cfg thunk a m =
      (Except.error (errs (a + m)),
        (List.range m).map (fun i => retryDelay cfg (a + i))) := by
  induction m generalizing a with
  | zero =>
    have h0 := hfail 0 (le_refl 0)
    rw [Nat.add_zero] at h0
    simp [retryLoop, h0]
  | succ m ih =>
    have h0 := hfail 0 (Nat.zero_le _)
    rw [Nat.add_zero] at h0
    have hfail2 : ∀ i, i ≤ m → thunk (a + 1 + i) = Except.error (errs (a + 1 + i)) := by
      intro i hi
      have heq : a + 1 + i = a + (i + 1) := by omega
      rw [heq]
      exact hfail (i + 1) (Nat.succ_le_succ hi)
    rw [delays_shift]
    simp only [retryLoop, h0]
    rw [ih (a + 1) hfail2]
    have heq : a + 1 + m = a + (m + 1) := by omega
    rw [heq]

/-- C5: `executeWithRetry` sleeps `min(base * 2^attempt, cap)` after the
failure of each attempt it retries; a thunk that first succeeds on attempt
`k ≤ maxRetries` yields that success after exactly the delays for attempts
`0 .. k-1` (so at most `maxRetries` retries happen), and a thunk that fails
on every allowed attempt makes the wrapper fail with the error of the last
attempt, attempt `maxRetries`. -/
theorem executeWithRetry_spec {ε α : Type} (cfg : RateLimiterConfig)
    (thunk : ℕ → Except ε α) :
    (∀ (k : ℕ) (v : α), k ≤ cfg.maxRetries →
      (∀ i, i < k → ∀ w : α, thunk i ≠ Except.ok w) →
      thunk k = Except.ok v →
      executeWithRetry cfg thunk =
        (Except.ok v, (List.range k).map (retryDelay cfg))) ∧
    (∀ errs : ℕ → ε,
      (∀ i, i ≤ cfg.maxRetries → thunk i = Except.error (errs i)) →
      executeWithRetry cfg thunk =
        (Except.error (errs cfg.maxRetries),
          (List.range cfg.maxRetries).map (retryDelay cfg))) := by
  constructor
  · intro k v hk hfail hok
    have h := retryLoop_ok cfg thunk 0 cfg.maxRetries k v hk
      (fun i hi w => by simpa using hfail i hi w)
      (by simpa using hok)
    rw [executeWithRetry, h]
    simp [Nat.zero_add]
  · intro errs hfail
    have h := retryLoop_allFail cfg thunk errs 0 cfg.maxRetries
      (fun i hi => by simpa using hfail i hi)
    rw [executeWithRetry, h]
    simp [Nat.zero_add]

/-- C5 witness: a thunk failing on attempts 0-2 and succeeding on attempt 3,
under maxRetries = 4, base 1000 ms, cap 16000 ms, succeeds on its 4th attempt
with observed backoff delays 1000 ms, 2000 ms and 4000 ms. -/
theorem executeWithRetry_spec_witness :
    executeWithRetry ⟨4, 1000, 16000⟩
        (fun i => if i < 3 then (Except.error "boom" : Except String ℕ) else Except.ok 42)
      = (Except.ok 42, [1000, 2000, 4000]) := by
  have h := (executeWithRetry_spec ⟨4, 1000, 16000⟩
      (fun i => if i < 3 then (Except.error "boom" : Except String ℕ) else Except.ok 42)).1
      3 42 (by norm_num)
      (fun i hi w => by simp [hi])
      (by norm_num)
  rw [h]
  norm_num [retryDelay, List.range_succ]

/-! ## P&L ledger: `PnLTracker`, and the bot's `recordTradeClose` -/

/-- Exit reason union type of `TradeResult`. -/
inductive ExitReason where
  | take_profit
  | stop_loss
  | manual
  | timeout
  deriving DecidableEq

/-- One realised trade (`TradeResult`). -/
structure TradeResult where
  tradeId : String
  tokenType : String
  entryPrice : ℚ
  exitPrice : ℚ
  shares : ℚ
  pnl : ℚ
  pnlPercent : ℚ
  exitReason : ExitReason
  entryTime : ℤ
  exitTime : ℤ
  holdingTimeMs : ℤ
  deriving DecidableEq

/-- The mutable state of a `PnLTracker` instance. -/
structure PnLTracker where
  trades : List TradeResult
  runningPnL : ℚ
  peakPnL : ℚ
  maxDrawdown : ℚ
  deriving DecidableEq

/-- Field initialisers of a freshly constructed `PnLTracker`. -/
def PnLTracker.init : PnLTracker :=
  { trades := [], runningPnL := 0, peakPnL := 0, maxDrawdown := 0 }

/-- Shallow embedding of `PnLTracker.recordTrade`: append the result, add its
P&L to the running sum, raise the peak if exceeded, and raise the maximum
drawdown if the current peak-minus-running drawdown exceeds it. -/
def recordTrade (t : PnLTracker) (result : TradeResult) : PnLTracker :=
  let runningPnL := t.runningPnL + result.pnl
  let peakPnL := if t.peakPnL < runningPnL then runningPnL else t.peakPnL
  let currentDrawdown := peakPnL - runningPnL
  let maxDrawdown :=
    if t.maxDrawdown < currentDrawdown then currentDrawdown else t.maxDrawdown
  { trades := t.trades ++ [result], runningPnL := runningPnL,
    peakPnL := peakPnL, maxDrawdown := maxDrawdown }

/-- Aggregate statistics record (`TradingStats`).  `profitFactor` is an
`Option`: `none` encodes the JavaScript `Infinity` returned when there are
wins but no losses. -/
structure TradingStats where
  totalTrades : ℕ
  winningTrades : ℕ
  losingTrades : ℕ
  winRate : ℚ
  totalPnL : ℚ
  averagePnL : ℚ
  averageWin : ℚ
  averageLoss : ℚ
  profitFactor : Option ℚ
  maxDrawdown : ℚ
  bestTrade : ℚ
  worstTrade : ℚ
  averageHoldingTimeMs : ℚ
  deriving DecidableEq

/-- The all-zero record returned by `getStats` for an empty trade list. -/
def emptyStats : TradingStats :=
  { totalTrades := 0, winningTrades := 0, losingTrades := 0, winRate := 0,
    totalPnL := 0, averagePnL := 0, averageWin := 0, averageLoss := 0,
    profitFactor := some 0, maxDrawdown := 0, bestTrade := 0, worstTrade := 0,
    averageHoldingTimeMs := 0 }

/-- Spread maximum `Math.max(...xs)` over a non-empty list; `0` stands in
for the `-Infinity` of an empty spread, which the caller's empty-list guard
makes unreachable. -/
def listMax : List ℚ → ℚ
  | [] => 0
  | p :: ps => ps.foldl max p

/-- Spread minimum `Math.min(...xs)` over a non-empty list, `0` for the
empty spread. -/
def listMin : List ℚ → ℚ
  | [] => 0
  | p :: ps => ps.foldl min p

/-- Shallow embedding of `PnLTracker.getStats`. -/
def getStats (t : PnLTracker) : TradingStats :=
  if t.trades = [] then emptyStats
  else
    let winningTrades := t.trades.filter (fun r => 0 < r.pnl)
    let losingTrades := t.trades.filter (fun r => r.pnl ≤ 0)
    let totalWins := (winningTrades.map (fun r => r.pnl)).sum
    let totalLosses := |(losingTrades.map (fun r => r.pnl)).sum|
    let pnls := t.trades.map (fun r => r.pnl)
    let holdingTimes := t.trades.map (fun r => (r.holdingTimeMs : ℚ))
    { totalTrades := t.trades.length
      winningTrades := winningTrades.length
      losingTrades := losingTrades.length
      winRate := ((winningTrades.length : ℚ) / (t.trades.length : ℚ)) * 100
      totalPnL := t.runningPnL
      averagePnL := t.runningPnL / (t.trades.length : ℚ)
      averageWin :=
        if 0 < winningTrades.length then totalWins / (winningTrades.length : ℚ) else 0
      averageLoss :=
        if 0 < losingTrades.length then totalLosses / (losingTrades.length : ℚ) else 0
      profitFactor :=
        if 0 < totalLosses then some (totalWins / totalLosses)
        else if 0 < totalWins then none else some 0
      maxDrawdown := t.maxDrawdown
      bestTrade := listMax pnls
      worstTrade := listMin pnls
      averageHoldingTimeMs := holdingTimes.sum / (t.trades.length : ℚ) }

/-- Trade lifecycle states of the enhanced bot's `Trade` interface.  The
source's `'partial'` literal is rendered `partialFill` (`partial` is a
reserved word in Lean). -/
inductive TradeStatus where
  | pending
  | filled
  | partialFill
  | closed
  | cancelled
  deriving DecidableEq

/-- An active trade of the enhanced bot (`Trade` interface). -/
structure Trade where
  id : String
  tokenType : String
  tokenId : String
  buyOrderId : String
  takeProfitOrderId : String
  stopLossOrderId : String
  buyPrice : ℚ
  targetPrice : ℚ
  stopPrice : ℚ
  shares : ℚ
  amount : ℚ
  timestamp : ℤ
  status : TradeStatus
  filledShares : ℚ
  exitReason : Option ExitReason
  deriving DecidableEq

/-- Shallow embedding of the enhanced bot's `recordTradeClose`: a guard
returns immediately when the trade is already closed; otherwise the exit
price is the take-profit target or the stop price, a `TradeResult` is pushed
into the ledger, and the trade is marked closed.  `now` models `Date.now()`
at the close. -/
def recordTradeClose (trade : Trade) (tracker : PnLTracker)
    (exitReason : ExitReason) (now : ℤ) : Trade × PnLTracker :=
  if trade.status = TradeStatus.closed then (trade, tracker)
  else
    let exitPrice :=
      if exitReason = ExitReason.take_profit then trade.targetPrice else trade.stopPrice
    let pnl := (exitPrice - trade.buyPrice) * trade.shares
    let pnlPercent := (exitPrice - trade.buyPrice) / trade.buyPrice * 100
    let result : TradeResult :=
      { tradeId := trade.id, tokenType := trade.tokenType,
        entryPrice := trade.buyPrice, exitPrice := exitPrice,
        shares := trade.shares, pnl := pnl, pnlPercent := pnlPercent,
        exitReason := exitReason, entryTime := trade.timestamp,
        exitTime := now, holdingTimeMs := now - trade.timestamp }
    ({ trade with status := TradeStatus.closed, exitReason := some exitReason },
      recordTrade tracker result)

/-- C6: closing the same trade twice is idempotent — replaying a close, with
any exit reason and at any later time, on the trade and ledger produced by a
first close changes neither of them: no `TradeResult` is double-recorded and
the running P&L is not double-adjusted. -/
theorem recordTradeClose_idempotent (trade : Trade) (tracker : PnLTracker)
    (r1 r2 : ExitReason) (n1 n2 : ℤ) :
    recordTradeClose (recordTradeClose trade tracker r1 n1).1
        (recordTradeClose trade tracker r1 n1).2 r2 n2
      = recordTradeClose trade tracker r1 n1 := by
  by_cases h : trade.status = TradeStatus.closed
  · simp [recordTradeClose, h]
  · simp [recordTradeClose, h]

/-- C7: the ledger's maximum drawdown is non-decreasing — recording one more
trade never lowers it, and hence neither does appending any sequence of
trade results. -/
theorem recordTrade_maxDrawdown_mono :
    (∀ (t : PnLTracker) (r : TradeResult),
      t.maxDrawdown ≤ (recordTrade t r).maxDrawdown) ∧
    (∀ (t : PnLTracker) (rs : List TradeResult),
      t.maxDrawdown ≤ (rs.foldl recordTrade t).maxDrawdown) := by
  have hstep : ∀ (t : PnLTracker) (r : TradeResult),
      t.maxDrawdown ≤ (recordTrade t r).maxDrawdown := by
    intro t r
    simp only [recordTrade]
    split_ifs <;> linarith
  refine ⟨hstep, ?_⟩
  intro t rs
  induction rs generalizing t with
  | nil => exact le_refl _
  | cons r rs ih => exact le_trans (hstep t r) (ih (recordTrade t r))

/-- C10: when no trades have been recorded, `getStats` returns the all-zero
statistics record; the divisions by the trade count and the empty-spread
extrema of the non-empty branch are never evaluated. -/
theorem getStats_empty (t : PnLTracker) (h : t.trades = []) :
    getStats t = emptyStats := by
  simp [getStats, h]

/-- C10 witness: the statistics of a freshly initialised tracker. -/
theorem getStats_empty_witness :
    PnLTracker.init.trades = [] ∧ getStats PnLTracker.init = emptyStats :=
  ⟨rfl, getStats_empty PnLTracker.init rfl⟩

/-! ## Enhanced bot: `AutoTradingBot.checkTradeOpportunity` and
`executeTrade`

The embedding follows the enhanced arbitrage bot — the variant wired to the
`OrderBookTracker` and `PnLTracker` — whose gate chain matches the spec's
OpportunityDetector: cooldown, oracle freshness, balance, then per-token
order-book staleness, edge, spread, liquidity and slippage.  The balance is
fetched through the rate limiter; the embedding takes the fetched USDC
balance as an argument. -/

/-- The UP/DOWN iteration labels of the opportunity scan. -/
inductive TokenType where
  | UP
  | DOWN
  deriving DecidableEq

/-- The bot's `softwarePrices` record: last oracle probabilities and the
reception timestamp. -/
structure SoftwarePrices where
  up : ℚ
  down : ℚ
  lastUpdate : ℤ
  deriving DecidableEq

/-- Configuration fields of the enhanced bot relevant to the opportunity
scan.  `minLiquidityMultiplier` and the order-book staleness bound
(`priceStaleMs`, also passed to the tracker's constructor) parameterise the
embedded tracker calls. -/
structure BotConfig where
  tradeCooldown : ℤ
  priceStaleMs : ℤ
  minimumBalance : ℚ
  priceThreshold : ℚ
  maxSpread : ℚ
  maxSlippage : ℚ
  tradeAmount : ℚ
  minLiquidityMultiplier : ℚ
  enableDynamicSizing : Bool
  deriving DecidableEq

/-- The mutable bot state read by the opportunity scan. -/
structure BotState where
  softwarePrices : SoftwarePrices
  polymarketPrices : String → Option ℚ
  books : String → Option OrderBookData
  lastTradeTime : ℤ
  tokenIdUp : Option String
  tokenIdDown : Option String

/-- A detected opportunity (`TradeOpportunity` of the enhanced bot). -/
structure TradeOpportunity where
  tokenType : TokenType
  tokenId : String
  softwarePrice : ℚ
  polymarketPrice : ℚ
  difference : ℚ
  confidence : ℚ
  spread : ℚ
  liquidityScore : ℚ
  recommendedSize : ℚ
  deriving DecidableEq

/-- Shallow embedding of `AutoTradingBot.calculateConfidence`: the weighted
sum of the edge, spread, liquidity and freshness factors, each clamped to
[0, 1] before weighting with 0.4/0.2/0.2/0.2. -/
def calculateConfidence (cfg : BotConfig) (priceDiff spread liquidity : ℚ)
    (oracleAge : ℤ) : ℚ :=
  let diffFactor := min ((priceDiff - cfg.priceThreshold) / cfg.priceThreshold) 1
  let spreadFactor := max (1 - spread / cfg.maxSpread) 0
  let liquidityFactor := min (liquidity / (cfg.tradeAmount * 5)) 1
  let freshnessFactor := max (1 - (oracleAge : ℚ) / (cfg.priceStaleMs : ℚ)) 0
  diffFactor * (4/10) + spreadFactor * (2/10) + liquidityFactor * (2/10)
    + freshnessFactor * (2/10)

/-- Shallow embedding of `AutoTradingBot.calculateDynamicSize`: base size
scaled by `0.5 + 1.5 * confidence`, capped by a third of the available
liquidity, a tenth of the balance, and twice the base size. -/
def calculateDynamicSize (cfg : BotConfig) (confidence availableLiquidity balance : ℚ) : ℚ :=
  min (min (min (cfg.tradeAmount * (1/2 + confidence * (3/2)))
    (availableLiquidity / 3)) (balance * (1/10))) (cfg.tradeAmount * 2)

/-- One iteration of the `for (const tokenType of ['UP', 'DOWN'])` loop of
`checkTradeOpportunity`: every `continue` of the source is a `none` here.
`isStale` is inlined as its definition `now - lastUpdate > maxStaleMs`
(with `maxStaleMs` the bot's `priceStaleMs`, as passed to the tracker's
constructor), and a missing book is stale. -/
def tryToken (cfg : BotConfig) (s : BotState) (now : ℤ) (balanceUsdc : ℚ)
    (tokenType : TokenType) : Option TradeOpportunity :=
  let softwarePrice :=
    match tokenType with
    | TokenType.UP => s.softwarePrices.up
    | TokenType.DOWN => s.softwarePrices.down
  match (match tokenType with
         | TokenType.UP => s.tokenIdUp
         | TokenType.DOWN => s.tokenIdDown) with
  | none => none
  | some tokenId =>
    match s.books tokenId with
    | none => none
    | some book =>
      if cfg.priceStaleMs < now - book.lastUpdate then none
      else
        let polyPrice := (s.polymarketPrices tokenId).getD 0
        let diff := softwarePrice - polyPrice
        if diff < cfg.priceThreshold ∨ softwarePrice ≤ 0 ∨ polyPrice ≤ 0 then none
        else if cfg.maxSpread < book.spreadPercent then none
        else
          let liquidityCheck :=
            checkLiquidity cfg.minLiquidityMultiplier s.books tokenId Side.BUY cfg.tradeAmount
          if liquidityCheck.sufficient = false then none
          else if cfg.maxSlippage < liquidityCheck.estimatedSlippage then none
          else
            let oracleAge := now - s.softwarePrices.lastUpdate
            let confidence :=
              calculateConfidence cfg diff book.spreadPercent
                liquidityCheck.availableLiquidity oracleAge
            let recommendedSize :=
              if cfg.enableDynamicSizing then
                calculateDynamicSize cfg confidence liquidityCheck.availableLiquidity balanceUsdc
              else cfg.tradeAmount
            let liquidityScore :=
              min (liquidityCheck.availableLiquidity / (cfg.tradeAmount * 5)) 1
            some { tokenType := tokenType, tokenId := tokenId,
                   softwarePrice := softwarePrice, polymarketPrice := polyPrice,
                   difference := diff, confidence := confidence,
                   spread := book.spreadPercent, liquidityScore := liquidityScore,
                   recommendedSize := recommendedSize }

/-- Shallow embedding of the enhanced `AutoTradingBot.checkTradeOpportunity`:
the cooldown gate, the oracle-staleness gate, the balance gate, then the
UP/DOWN scan in that order, first qualifying token winning.  `balanceUsdc` is
the USDC balance fetched through the rate limiter inside the gate chain. -/
def checkTradeOpportunity (cfg : BotConfig) (s : BotState) (now : ℤ)
    (balanceUsdc : ℚ) : Option TradeOpportunity :=
  if 0 < cfg.tradeCooldown - (now - s.lastTradeTime) then none
  else if cfg.priceStaleMs < now - s.softwarePrices.lastUpdate then none
  else if balanceUsdc < cfg.minimumBalance then none
  else
    match tryToken cfg s now balanceUsdc TokenType.UP with
    | some opportunity => some opportunity
    | none => tryToken cfg s now balanceUsdc TokenType.DOWN

/-- Example configuration: the default env values of the enhanced bot
(cooldown 30 s, staleness 10 s, minimum balance 500, threshold 0.015, max
spread 3 %, max slippage 1 %, trade amount 5, liquidity multiplier 2,
dynamic sizing off). -/
def exampleConfig : BotConfig :=
  { tradeCooldown := 30000, priceStaleMs := 10000, minimumBalance := 500,
    priceThreshold := 3/200, maxSpread := 3, maxSlippage := 1/100,
    tradeAmount := 5, minLiquidityMultiplier := 2, enableDynamicSizing := false }

/-- Example book for the UP token: bids [(0.69, 100)], asks [(0.70, 100)],
received at t = 30.6 s. -/
def exampleUpBook : OrderBookData :=
  updateOrderBook "U" [⟨69/100, 100⟩] [⟨7/10, 100⟩] 30600

/-- Example bot state: oracle probability 0.75 for UP received at t = 30.5 s,
market mid price 0.695 for the UP token, last trade at t = 0. -/
def exampleState : BotState :=
  { softwarePrices := { up := 3/4, down := 1/4, lastUpdate := 30500 },
    polymarketPrices := fun t => if t = "U" then some (139/200) else none,
    books := fun t => if t = "U" then some exampleUpBook else none,
    lastTradeTime := 0,
    tokenIdUp := some "U",
    tokenIdDown := some "D" }

/-- C9: on every evaluation tick, a stale oracle snapshot — age strictly
above `priceStaleMs` — makes `checkTradeOpportunity` return no opportunity,
for every balance and every per-token order-book state: the staleness gate
fires before any per-instrument gate is evaluated. -/
theorem checkTradeOpportunity_staleOracle (cfg : BotConfig) (s : BotState)
    (now : ℤ) (balanceUsdc : ℚ)
    (hstale : cfg.priceStaleMs < now - s.softwarePrices.lastUpdate) :
    checkTradeOpportunity cfg s now balanceUsdc = none := by
  unfold checkTradeOpportunity
  split_ifs with h1 <;> rfl

/-- C9 witness: the staleness gate applied to the example state at a tick
far past the snapshot's reception time. -/
theorem checkTradeOpportunity_staleOracle_witness :
    exampleConfig.priceStaleMs < 10000000 - exampleState.softwarePrices.lastUpdate ∧
    checkTradeOpportunity exampleConfig exampleState 10000000 1000 = none :=
  ⟨by norm_num [exampleConfig, exampleState],
    checkTradeOpportunity_staleOracle exampleConfig exampleState 10000000 1000
      (by norm_num [exampleConfig, exampleState])⟩

/-- C8: the cooldown gate — whenever `now - lastTradeTime < tradeCooldown`,
the opportunity check returns no opportunity, for every configuration, state
and balance; and at the example state, 31 s after a last trade at time 0
under a 30 s cooldown, an opportunity is returned because every other gate
passes. -/
theorem checkTradeOpportunity_cooldown :
    (∀ (cfg : BotConfig) (s : BotState) (now : ℤ) (balanceUsdc : ℚ),
      now - s.lastTradeTime < cfg.tradeCooldown →
      checkTradeOpportunity cfg s now balanceUsdc = none) ∧
    (checkTradeOpportunity exampleConfig exampleState 31000 1000).isSome = true := by
  constructor
  · intro cfg s now balanceUsdc hcool
    unfold checkTradeOpportunity
    rw [if_pos (by linarith)]
  · set_option maxRecDepth 10000 in
    norm_num [checkTradeOpportunity, tryToken, exampleConfig, exampleState,
      exampleUpBook, updateOrderBook, checkLiquidity, walkLevels,
      calculateConfidence, calculateDynamicSize, min_def, max_def]

/-- C8 witness: the cooldown gate applied at the example state 29 s after a
last trade at time 0 under a 30 s cooldown. -/
theorem checkTradeOpportunity_cooldown_witness :
    (29000 : ℤ) - exampleState.lastTradeTime < exampleConfig.tradeCooldown ∧
    checkTradeOpportunity exampleConfig exampleState 29000 1000 = none :=
  ⟨by norm_num [exampleConfig, exampleState],
    checkTradeOpportunity_cooldown.1 exampleConfig exampleState 29000 1000
      (by norm_num [exampleConfig, exampleState])⟩

/-! ## Order arithmetic of `executeTrade` -/

/-- The numbers computed by `AutoTradingBot.executeTrade` and passed to its
three `createAndPostOrder` calls: the share size, the buffered entry order
price, and the two exit order prices. -/
structure TradePlan where
  shares : ℚ
  entryOrderPrice : ℚ
  takeProfitPrice : ℚ
  stopLossPrice : ℚ
  deriving DecidableEq

/-- Shallow embedding of the pure arithmetic of `executeTrade`:
`buyPrice = opportunity.polymarketPrice`, `shares = tradeAmount / buyPrice`,
the entry order is submitted at `buyPrice * 1.01`, and the exits at
`min(buyPrice + takeProfitAmount, 0.99)` and
`max(buyPrice - stopLossAmount, 0.01)`. -/
def executeTradePlan (tradeAmount takeProfitAmount stopLossAmount marketPrice : ℚ) :
    TradePlan :=
  let buyPrice := marketPrice
  let shares := tradeAmount / buyPrice
  let actualBuyPrice := buyPrice
  { shares := shares
    entryOrderPrice := buyPrice * (101/100)
    takeProfitPrice := min (actualBuyPrice + takeProfitAmount) (99/100)
    stopLossPrice := max (actualBuyPrice - stopLossAmount) (1/100) }

/-- C3: for every executed trade, `shares = notional / marketPrice` (so the
share value at the market price is the notional), the entry order price is
`marketPrice * 1.01`, the take-profit price is
`min(marketPrice + takeProfit, 0.99)` and the stop-loss price is
`max(marketPrice - stopLoss, 0.01)`, both clamped inside the valid price
domain; for price 0.70, offsets 0.01/0.005 and notional 5 this gives entry
0.707, take profit 0.71 and stop loss 0.695. -/
theorem executeTradePlan_spec (n tp sl p : ℚ) (hp : p ≠ 0) :
    (executeTradePlan n tp sl p).shares = n / p ∧
    (executeTradePlan n tp sl p).shares * p = n ∧
    (executeTradePlan n tp sl p).entryOrderPrice = p * (101/100) ∧
    (executeTradePlan n tp sl p).takeProfitPrice = min (p + tp) (99/100) ∧
    (executeTradePlan n tp sl p).takeProfitPrice ≤ 99/100 ∧
    (executeTradePlan n tp sl p).stopLossPrice = max (p - sl) (1/100) ∧
    1/100 ≤ (executeTradePlan n tp sl p).stopLossPrice ∧
    executeTradePlan 5 (1/100) (1/200) (7/10) =
      { shares := 50/7, entryOrderPrice := 707/1000,
        takeProfitPrice := 71/100, stopLossPrice := 139/200 } := by
  refine ⟨rfl, ?_, rfl, rfl, ?_, rfl, ?_, ?_⟩
  · simp only [executeTradePlan]
    exact div_mul_cancel₀ n hp
  · simp only [executeTradePlan]
    exact min_le_right _ _
  · simp only [executeTradePlan]
    exact le_max_right _ _
  · norm_num [executeTradePlan, min_def, max_def, TradePlan.mk.injEq]

/-- C3 witness: the trade arithmetic at market price 0.70, notional 5, take
profit 0.01 and stop loss 0.005 — entry at 0.707, take profit at 0.71, stop
loss at 0.695. -/
theorem executeTradePlan_spec_witness :
    ((7:ℚ)/10 ≠ 0) ∧
    executeTradePlan 5 (1/100) (1/200) (7/10) =
      { shares := 50/7, entryOrderPrice := 707/1000,
        takeProfitPrice := 71/100, stopLossPrice := 139/200 } :=
  ⟨by norm_num,
    (executeTradePlan_spec 5 (1/100) (1/200) (7/10) (by norm_num)).2.2.2.2.2.2.2⟩

end PolyBot
